import Mathlib

/-!
Shallow embedding of the document-metadata-extractor repository
(document_metadata_extractor.py): the extension dispatcher, the per-format
metadata extractors, the metadata hasher (json.dumps with sorted keys
followed by SHA-256), and the SQLite-backed persistence layer.

Python dicts are embedded as insertion-ordered association lists
(List (String × JVal)); machine words in SHA-256 are Nat reduced mod 2^32;
fallible library calls (opening and parsing a file) are Except values
supplied by an abstract file-system parameter, and the per-extractor
try/except blocks become matches on those Except values.
-/

/-- JSON values as produced by the extractors: Python str, int, list,
and None (python-docx style attributes may be None). -/
inductive JVal where
  | null : JVal
  | str : String → JVal
  | num : Int → JVal
  | arr : List JVal → JVal

/-- A Python dict with string keys, as an insertion-ordered association list. -/
abbrev PyDict : Type := List (String × JVal)

/-- Code-point lexicographic comparison of strings (as character lists):
this is Python string comparison, and also byte order of their UTF-8
encodings (SQLite BINARY collation) for the ASCII strings used here. -/
def strLeB : List Char → List Char → Bool
  | [], _ => true
  | _ :: _, [] => false
  | a :: as, b :: bs =>
    if a.toNat < b.toNat then true
    else if b.toNat < a.toNat then false
    else strLeB as bs

/-- 32-bit truncation, as Python int arithmetic masked to a machine word. -/
def w32 (n : Nat) : Nat := n % 4294967296

/-- Right rotation of a 32-bit word. -/
def rotr (n x : Nat) : Nat := w32 ((x >>> n) ||| (x <<< (32 - n)))

/-- The eight working variables of SHA-256. -/
structure SHAState where
  a : Nat
  b : Nat
  c : Nat
  d : Nat
  e : Nat
  f : Nat
  g : Nat
  h : Nat

/-- SHA-256 initial hash value (the standard eight words, in decimal). -/
def shaInit : SHAState :=
  ⟨1779033703, 3144134277, 1013904242, 2773480762,
   1359893119, 2600822924, 528734635, 1541459225⟩

/-- SHA-256 round constants (the standard 64 words, in decimal). -/
def shaK : List Nat :=
  [1116352408, 1899447441, 3049323471, 3921009573, 961987163,
   1508970993, 2453635748, 2870763221, 3624381080, 310598401,
   607225278, 1426881987, 1925078388, 2162078206, 2614888103,
   3248222580, 3835390401, 4022224774, 264347078, 604807628,
   770255983, 1249150122, 1555081692, 1996064986, 2554220882,
   2821834349, 2952996808, 3210313671, 3336571891, 3584528711,
   113926993, 338241895, 666307205, 773529912, 1294757372,
   1396182291, 1695183700, 1986661051, 2177026350, 2456956037,
   2730485921, 2820302411, 3259730800, 3345764771, 3516065817,
   3600352804, 4094571909, 275423344, 430227734, 506948616,
   659060556, 883997877, 958139571, 1322822218, 1537002063,
   1747873779, 1955562222, 2024104815, 2227730452, 2361852424,
   2428436474, 2756734187, 3204031479, 3329325298]

/-- Big-endian bytes of a 32-bit word. -/
def be4 (x : Nat) : List Nat :=
  [x / 16777216 % 256, x / 65536 % 256, x / 256 % 256, x % 256]

/-- Big-endian bytes of the 64-bit message-length field. -/
def be8 (x : Nat) : List Nat :=
  [x / 72057594037927936 % 256, x / 281474976710656 % 256,
   x / 1099511627776 % 256, x / 4294967296 % 256,
   x / 16777216 % 256, x / 65536 % 256, x / 256 % 256, x % 256]

/-- SHA-256 padding: append 0x80, zeros to 56 mod 64, then the bit length. -/
def shaPad (msg : List Nat) : List Nat :=
  let L := msg.length
  let k := (119 - L % 64) % 64
  msg ++ [0x80] ++ List.replicate k 0 ++ be8 (8 * L)

/-- Group bytes into big-endian 32-bit words. -/
def bytesToWords : List Nat → List Nat
  | b0 :: b1 :: b2 :: b3 :: rest =>
    (b0 * 16777216 + b1 * 65536 + b2 * 256 + b3) :: bytesToWords rest
  | _ => []

/-- Extend the 16 chunk words to the 64-entry message schedule. -/
def shaSchedule (chunk : List Nat) : List Nat :=
  (List.range 48).foldl
    (fun w _ =>
      let n := w.length
      let w15 := w.getD (n - 15) 0
      let w2 := w.getD (n - 2) 0
      let s0 := rotr 7 w15 ^^^ rotr 18 w15 ^^^ (w15 >>> 3)
      let s1 := rotr 17 w2 ^^^ rotr 19 w2 ^^^ (w2 >>> 10)
      w ++ [w32 (w.getD (n - 16) 0 + s0 + w.getD (n - 7) 0 + s1)])
    chunk

/-- One SHA-256 compression round. -/
def shaRound (st : SHAState) (kw : Nat × Nat) : SHAState :=
  let s1 := rotr 6 st.e ^^^ rotr 11 st.e ^^^ rotr 25 st.e
  let ch := (st.e &&& st.f) ^^^ ((st.e ^^^ 4294967295) &&& st.g)
  let temp1 := w32 (st.h + s1 + ch + kw.1 + kw.2)
  let s0 := rotr 2 st.a ^^^ rotr 13 st.a ^^^ rotr 22 st.a
  let maj := (st.a &&& st.b) ^^^ (st.a &&& st.c) ^^^ (st.b &&& st.c)
  let temp2 := w32 (s0 + maj)
  ⟨w32 (temp1 + temp2), st.a, st.b, st.c, w32 (st.d + temp1), st.e, st.f, st.g⟩

/-- Compress one 16-word chunk into the running state. -/
def shaCompress (st : SHAState) (chunk : List Nat) : SHAState :=
  let t := (shaK.zip (shaSchedule chunk)).foldl shaRound st
  ⟨w32 (st.a + t.a), w32 (st.b + t.b), w32 (st.c + t.c), w32 (st.d + t.d),
   w32 (st.e + t.e), w32 (st.f + t.f), w32 (st.g + t.g), w32 (st.h + t.h)⟩

/-- Process the padded message, 16 words at a time. -/
def shaProcess (st : SHAState) (ws : List Nat) : SHAState :=
  if h : ws = [] then st
  else shaProcess (shaCompress st (ws.take 16)) (ws.drop 16)
termination_by ws.length
decreasing_by
  simp only [List.length_drop]
  have : 0 < ws.length := List.length_pos.mpr h
  omega

/-- The final SHA-256 state of a byte message. -/
def sha256Final (msg : List Nat) : SHAState :=
  shaProcess shaInit (bytesToWords (shaPad msg))

/-- The 32 digest bytes of a final state. -/
def stateBytes (st : SHAState) : List Nat :=
  be4 st.a ++ be4 st.b ++ be4 st.c ++ be4 st.d ++
  be4 st.e ++ be4 st.f ++ be4 st.g ++ be4 st.h

/-- Lowercase hex digit for a value below 16. -/
def hexChar (n : Nat) : Char := ("0123456789abcdef").data.getD n '0'

/-- Two lowercase hex characters of one byte. -/
def byteHex (b : Nat) : List Char := [hexChar (b / 16 % 16), hexChar (b % 16)]

/-- hashlib hexdigest: the digest bytes in lowercase hexadecimal. -/
def sha256Hexdigest (msg : List Nat) : String :=
  ⟨(stateBytes (sha256Final msg)).flatMap byteHex⟩

/-- UTF-8 encoding of one character, as str.encode() performs per code point. -/
def utf8Char (c : Char) : List Nat :=
  let n := c.toNat
  if n < 128 then [n]
  else if n < 2048 then [192 ||| (n >>> 6), 128 ||| (n &&& 63)]
  else if n < 65536 then
    [224 ||| (n >>> 12), 128 ||| ((n >>> 6) &&& 63), 128 ||| (n &&& 63)]
  else
    [240 ||| (n >>> 18), 128 ||| ((n >>> 12) &&& 63),
     128 ||| ((n >>> 6) &&& 63), 128 ||| (n &&& 63)]

/-- UTF-8 bytes of a string (str.encode()). -/
def strBytes (s : String) : List Nat := s.data.flatMap utf8Char

/-- Four lowercase hex digits, for json \uXXXX escapes. -/
def hex4 (n : Nat) : List Char :=
  [hexChar (n / 4096 % 16), hexChar (n / 256 % 16), hexChar (n / 16 % 16), hexChar (n % 16)]

/-- json.dumps escaping of one character (default ensure_ascii=True):
quote and backslash escaped, common controls shortened, every other
character outside printable ASCII as \uXXXX (surrogate pairs above BMP). -/
def jsonEscChar (c : Char) : List Char :=
  if c = '"' then ['\\', '"']
  else if c = '\\' then ['\\', '\\']
  else if 32 ≤ c.toNat ∧ c.toNat ≤ 126 then [c]
  else if c = '\n' then ['\\', 'n']
  else if c = '\t' then ['\\', 't']
  else if c = '\r' then ['\\', 'r']
  else if c.toNat = 8 then ['\\', 'b']
  else if c.toNat = 12 then ['\\', 'f']
  else if c.toNat < 65536 then '\\' :: 'u' :: hex4 c.toNat
  else
    let v := c.toNat - 65536
    '\\' :: 'u' :: hex4 (55296 + (v >>> 10)) ++ ('\\' :: 'u' :: hex4 (56320 + (v &&& 1023)))

/-- json.dumps rendering of a Python string, quotes included. -/
def jsonStr (s : String) : String :=
  ⟨'"' :: s.data.flatMap jsonEscChar ++ ['"']⟩

/-- json.dumps rendering of a value (default separators). -/
def dumpJVal : JVal → String
  | .null => "null"
  | .str s => jsonStr s
  | .num n => toString n
  | .arr l => "[" ++ String.intercalate ", " (l.attach.map fun x => dumpJVal x.1) ++ "]"
decreasing_by
  have := List.sizeOf_lt_of_mem x.2
  simp only [JVal.arr.sizeOf_spec]
  omega

/-- One "key": "value" entry of a serialized dict. -/
def dumpEntry (p : String × JVal) : String := jsonStr p.1 ++ ": " ++ dumpJVal p.2

/-- Key comparison used by json.dumps(sort_keys=True): Python string order
on the keys (keys of a dict are distinct, so values are never compared). -/
def keyLeB (a b : String × JVal) : Bool := strLeB a.1.data b.1.data

/-- json.dumps of a dict with default separators; sortKeys mirrors the
sort_keys keyword. -/
def json_dumps (sortKeys : Bool) (m : PyDict) : String :=
  let pairs := if sortKeys then List.mergeSort m keyLeB else m
  "\x7b" ++ String.intercalate ", " (pairs.map dumpEntry) ++ "\x7d"

/-- MetadataHasher.hash_metadata: SHA-256 hexdigest of the key-sorted JSON
serialization of the metadata, encoded as UTF-8. -/
def hash_metadata (metadata : PyDict) : String :=
  sha256Hexdigest (strBytes (json_dumps true metadata))

/-- str.rfind helper: index of the last occurrence of c at offset i or later,
with indices counted from i; -1 when absent. -/
def rfindAux (c : Char) : List Char → Nat → Int
  | [], _ => -1
  | x :: xs, i =>
    let r := rfindAux c xs (i + 1)
    if 0 ≤ r then r else if x == c then (i : Int) else -1

/-- Python str.rfind: index of the last occurrence, -1 when absent. -/
def rfind (l : List Char) (c : Char) : Int := rfindAux c l 0

/-- The leading-dots guard of posixpath.splitext: some character strictly
between positions lo and hi (exclusive) differs from the extension dot. -/
def hasNonDot (l : List Char) (lo hi : Int) : Bool :=
  (List.range l.length).any fun j =>
    decide (lo ≤ (j : Int)) && decide ((j : Int) < hi) && !(l.getD j '.' == '.')

/-- os.path.splitext on POSIX: split at the last dot of the final path
component, unless the component consists only of leading dots up to it. -/
def splitext (p : String) : String × String :=
  let l := p.data
  let sepIndex := rfind l '/'
  let dotIndex := rfind l '.'
  if dotIndex > sepIndex ∧ hasNonDot l (sepIndex + 1) dotIndex = true then
    (⟨l.take dotIndex.toNat⟩, ⟨l.drop dotIndex.toNat⟩)
  else (p, "")

/-- os.path.basename on POSIX: everything after the last slash. -/
def basename (p : String) : String :=
  ⟨p.data.drop (rfind p.data '/' + 1).toNat⟩

/-- Python str.lower, per character (ASCII suffices for extensions). -/
def pyLower (s : String) : String := ⟨s.data.map Char.toLower⟩

/-- Python s[:n] slicing on strings. -/
def pyTake (n : Nat) (s : String) : String := ⟨s.data.take n⟩

/-- Dict item assignment: update in place when the key exists, else append
(Python 3.7+ insertion-order semantics). -/
def dictSet (d : PyDict) (k : String) (v : JVal) : PyDict :=
  if (List.any d fun p => p.1 == k) then
    List.map (fun p => if p.1 == k then (k, v) else p) d
  else d ++ [(k, v)]

/-- A value that may be None, as stored directly into a dict entry. -/
def jopt : Option String → JVal
  | none => JVal.null
  | some s => JVal.str s

/-- Python str() applied to an optional value: "None" when absent. -/
def pyStr : Option String → String
  | none => "None"
  | some s => s

/-- A PyPDF2.PdfReader as the extractor reads it: the document-info
dictionary (stringified values; None when the trailer has no /Info) and
the extracted text of each page. -/
structure PdfDoc where
  docinfo : Option (List (String × String))
  pages : List String

/-- PDF metadata keys lose a leading slash. -/
def stripSlash (k : String) : String :=
  match k.data with
  | '/' :: rest => ⟨rest⟩
  | _ => k

/-- The try-block body of extract_pdf_metadata: docinfo entries (when the
dict is truthy), then page_count, then the first-page preview, whose
pages[0] access raises IndexError on an empty document. -/
def pdfBody (pdf : PdfDoc) : Except String PyDict :=
  let d0 : PyDict :=
    match pdf.docinfo with
    | some entries =>
      if entries.isEmpty then []
      else entries.foldl (fun d kv => dictSet d (stripSlash kv.1) (JVal.str kv.2)) []
    | none => []
  let d1 := dictSet d0 "page_count" (JVal.num pdf.pages.length)
  match pdf.pages with
  | [] => Except.error "sequence index out of range"
  | p :: _ => Except.ok (dictSet d1 "first_page_preview" (JVal.str (pyTake 200 p)))

/-- DocumentMetadataExtractor.extract_pdf_metadata: parse failures and
in-body exceptions become the single-key error dict. -/
def extract_pdf_metadata (file : Except String PdfDoc) : PyDict :=
  match file.bind pdfBody with
  | Except.ok m => m
  | Except.error e => [("error", JVal.str ("Failed to extract PDF metadata: " ++ e))]

/-- A python-docx Document as the extractor reads it: core properties
(possibly None) and the text of each paragraph. -/
structure DocxDoc where
  author : Option String
  created : Option String
  last_modified_by : Option String
  modified : Option String
  title : Option String
  paragraphs : List String

/-- The try-block body of extract_docx_metadata. -/
def docxBody (doc : DocxDoc) : PyDict :=
  [("author", jopt doc.author),
   ("created", JVal.str (pyStr doc.created)),
   ("last_modified_by", jopt doc.last_modified_by),
   ("modified", JVal.str (pyStr doc.modified)),
   ("title", jopt doc.title),
   ("paragraph_count", JVal.num doc.paragraphs.length),
   ("text_preview", JVal.str (match doc.paragraphs with
     | [] => ""
     | p :: _ => pyTake 200 p))]

/-- DocumentMetadataExtractor.extract_docx_metadata. -/
def extract_docx_metadata (file : Except String DocxDoc) : PyDict :=
  match file with
  | Except.ok doc => docxBody doc
  | Except.error e => [("error", JVal.str ("Failed to extract Word metadata: " ++ e))]

/-- An openpyxl workbook as the extractor reads it. -/
structure XlsxDoc where
  sheetnames : List String
  creator : Option String
  created : Option String
  modified : Option String
  lastModifiedBy : Option String

/-- The try-block body of extract_xlsx_metadata. -/
def xlsxBody (wb : XlsxDoc) : PyDict :=
  [("sheet_names", JVal.arr (wb.sheetnames.map JVal.str)),
   ("sheet_count", JVal.num wb.sheetnames.length),
   ("creator", jopt wb.creator),
   ("created", JVal.str (pyStr wb.created)),
   ("modified", JVal.str (pyStr wb.modified)),
   ("last_modified_by", jopt wb.lastModifiedBy)]

/-- DocumentMetadataExtractor.extract_xlsx_metadata. -/
def extract_xlsx_metadata (file : Except String XlsxDoc) : PyDict :=
  match file with
  | Except.ok wb => xlsxBody wb
  | Except.error e => [("error", JVal.str ("Failed to extract Excel metadata: " ++ e))]

/-- A python-pptx Presentation as the extractor reads it. -/
structure PptxDoc where
  slides : Nat
  author : Option String
  created : Option String
  modified : Option String
  title : Option String

/-- The try-block body of extract_pptx_metadata. -/
def pptxBody (pres : PptxDoc) : PyDict :=
  [("slide_count", JVal.num pres.slides),
   ("author", jopt pres.author),
   ("created", JVal.str (pyStr pres.created)),
   ("modified", JVal.str (pyStr pres.modified)),
   ("title", jopt pres.title)]

/-- DocumentMetadataExtractor.extract_pptx_metadata. -/
def extract_pptx_metadata (file : Except String PptxDoc) : PyDict :=
  match file with
  | Except.ok pres => pptxBody pres
  | Except.error e => [("error", JVal.str ("Failed to extract PowerPoint metadata: " ++ e))]

/-- A PIL Image as the extractor reads it: format, dimensions, mode, and
the EXIF dict (None when absent), entries already resolved through
PIL.ExifTags.TAGS and stringified. -/
structure ImageFile where
  format : Option String
  width : Nat
  height : Nat
  mode : String
  exif : Option (List (String × String))

/-- The try-block body of extract_image_metadata: EXIF entries are added
only when _getexif() is truthy (neither None nor empty). -/
def imageBody (img : ImageFile) : PyDict :=
  let d : PyDict :=
    [("format", jopt img.format),
     ("size", JVal.str (toString img.width ++ "x" ++ toString img.height)),
     ("mode", JVal.str img.mode)]
  match img.exif with
  | none => d
  | some entries =>
    if entries.isEmpty then d
    else entries.foldl (fun d kv => dictSet d ("exif_" ++ kv.1) (JVal.str kv.2)) d

/-- DocumentMetadataExtractor.extract_image_metadata. -/
def extract_image_metadata (file : Except String ImageFile) : PyDict :=
  match file with
  | Except.ok img => imageBody img
  | Except.error e => [("error", JVal.str ("Failed to extract image metadata: " ++ e))]

/-- An email.message as the extractor reads it: the five fetched headers
(None when missing, .get default applies) and the content-disposition of
every MIME part visited by walk(). -/
structure EmailMsg where
  subject : Option String
  fromAddr : Option String
  toAddr : Option String
  date : Option String
  cc : Option String
  parts : List (Option String)

/-- The try-block body of extract_email_metadata. -/
def emailBody (msg : EmailMsg) : PyDict :=
  [("subject", JVal.str (msg.subject.getD "")),
   ("from", JVal.str (msg.fromAddr.getD "")),
   ("to", JVal.str (msg.toAddr.getD "")),
   ("date", JVal.str (msg.date.getD "")),
   ("cc", JVal.str (msg.cc.getD "")),
   ("attachment_count",
     JVal.num (List.length (msg.parts.filter fun d => d == some "attachment")))]

/-- DocumentMetadataExtractor.extract_email_metadata. -/
def extract_email_metadata (file : Except String EmailMsg) : PyDict :=
  match file with
  | Except.ok msg => emailBody msg
  | Except.error e => [("error", JVal.str ("Failed to extract email metadata: " ++ e))]

/-- The try-block body of extract_csv_metadata, over the parsed rows:
next(reader, None) takes the header row, the remaining rows are counted;
a falsy header (empty file or empty first row) degrades to 0 and []. -/
def csvBody (rows : List (List String)) : PyDict :=
  match rows with
  | [] =>
    [("column_count", JVal.num 0),
     ("column_names", JVal.arr []),
     ("row_count", JVal.num 0)]
  | hs :: rest =>
    [("column_count", JVal.num (if hs.isEmpty then 0 else hs.length)),
     ("column_names", JVal.arr (if hs.isEmpty then [] else hs.map JVal.str)),
     ("row_count", JVal.num rest.length)]

/-- DocumentMetadataExtractor.extract_csv_metadata. -/
def extract_csv_metadata (file : Except String (List (List String))) : PyDict :=
  match file with
  | Except.ok rows => csvBody rows
  | Except.error e => [("error", JVal.str ("Failed to extract CSV metadata: " ++ e))]

/-- The environment the extractors read: what opening and parsing each
file yields for each format library, an error standing for the exception
the library raises on a missing or corrupt file. -/
structure FileSystem where
  pdf : String → Except String PdfDoc
  docx : String → Except String DocxDoc
  xlsx : String → Except String XlsxDoc
  pptx : String → Except String PptxDoc
  image : String → Except String ImageFile
  eml : String → Except String EmailMsg
  csv : String → Except String (List (List String))

/-- The keys of DocumentMetadataExtractor.supported_extensions. -/
def supported_extensions : List String :=
  [".pdf", ".docx", ".xlsx", ".pptx", ".jpg", ".jpeg", ".png", ".eml", ".csv"]

/-- DocumentMetadataExtractor.extract_metadata: lowercase the extension,
dispatch to the registered handler, otherwise report the unsupported type. -/
def extract_metadata (fs : FileSystem) (file_path : String) : PyDict :=
  let ext := pyLower (splitext file_path).2
  if ext = ".pdf" then extract_pdf_metadata (fs.pdf file_path)
  else if ext = ".docx" then extract_docx_metadata (fs.docx file_path)
  else if ext = ".xlsx" then extract_xlsx_metadata (fs.xlsx file_path)
  else if ext = ".pptx" then extract_pptx_metadata (fs.pptx file_path)
  else if ext = ".jpg" ∨ ext = ".jpeg" ∨ ext = ".png" then
    extract_image_metadata (fs.image file_path)
  else if ext = ".eml" then extract_email_metadata (fs.eml file_path)
  else if ext = ".csv" then extract_csv_metadata (fs.csv file_path)
  else [("error", JVal.str ("Unsupported file type: " ++ ext))]

/-- A file system on which every open or parse raises. -/
def fsFail : FileSystem :=
  ⟨fun _ => Except.error "boom", fun _ => Except.error "boom",
   fun _ => Except.error "boom", fun _ => Except.error "boom",
   fun _ => Except.error "boom", fun _ => Except.error "boom",
   fun _ => Except.error "boom"⟩

/-- One row of the document_metadata table. -/
structure Row where
  id : Nat
  file_path : String
  file_name : String
  metadata_hash : String
  timestamp : String
  metadata_json : String
deriving DecidableEq

/-- The database: the rows of document_metadata plus the AUTOINCREMENT
counter for the next id. -/
structure DBState where
  nextId : Nat
  rows : List Row

/-- DatabaseManager.create_tables on a fresh database file: an empty
table whose AUTOINCREMENT ids start at 1. -/
def create_tables : DBState := ⟨1, []⟩

/-- The row DatabaseManager.save_metadata inserts: basename as file_name,
the path unchanged, the caller-supplied hash, the captured timestamp, and
json.dumps of the metadata (insertion order, no key sorting). -/
def mkRow (nid : Nat) (file_path : String) (metadata : PyDict)
    (metadata_hash now : String) : Row :=
  ⟨nid, file_path, basename file_path, metadata_hash, now, json_dumps false metadata⟩

/-- DatabaseManager.save_metadata: insert one row, return its lastrowid;
the wall-clock timestamp datetime.now().isoformat() is a parameter. -/
def save_metadata (db : DBState) (file_path : String) (metadata : PyDict)
    (metadata_hash now : String) : Nat × DBState :=
  let r := mkRow db.nextId file_path metadata metadata_hash now
  (r.id, ⟨db.nextId + 1, db.rows ++ [r]⟩)

/-- ORDER BY timestamp DESC comparison: later timestamp first, by byte
order of the stored text (SQLite BINARY collation). -/
def tsDescB (a b : Row) : Bool := strLeB b.timestamp.data a.timestamp.data

/-- DatabaseManager.get_all_metadata: every row, ordered by timestamp
descending. -/
def get_all_metadata (db : DBState) : List Row :=
  List.mergeSort db.rows tsDescB

theorem strLeB_cons (x y : Char) (xs ys : List Char) :
    strLeB (x :: xs) (y :: ys) = true ↔
      x.toNat < y.toNat ∨ (x.toNat = y.toNat ∧ strLeB xs ys = true) := by
  simp only [strLeB]
  split_ifs with h1 h2
  · simp [h1]
  · constructor
    · intro h; exact absurd h (by simp)
    · intro h
      rcases h with h | ⟨h, _⟩
      · exact absurd h h1
      · omega
  · have hxy : x.toNat = y.toNat := by omega
    simp [hxy]

theorem strLeB_total (a b : List Char) : strLeB a b = true ∨ strLeB b a = true := by
  induction a generalizing b with
  | nil => exact Or.inl rfl
  | cons x xs ih =>
    cases b with
    | nil => exact Or.inr rfl
    | cons y ys =>
      rcases Nat.lt_trichotomy x.toNat y.toNat with h | h | h
      · exact Or.inl ((strLeB_cons x y xs ys).mpr (Or.inl h))
      · rcases ih ys with hle | hle
        · exact Or.inl ((strLeB_cons x y xs ys).mpr (Or.inr ⟨h, hle⟩))
        · exact Or.inr ((strLeB_cons y x ys xs).mpr (Or.inr ⟨h.symm, hle⟩))
      · exact Or.inr ((strLeB_cons y x ys xs).mpr (Or.inl h))

theorem strLeB_trans (a b c : List Char) (h1 : strLeB a b = true)
    (h2 : strLeB b c = true) : strLeB a c = true := by
  induction a generalizing b c with
  | nil => rfl
  | cons x xs ih =>
    cases b with
    | nil => exact absurd h1 (by simp [strLeB])
    | cons y ys =>
      cases c with
      | nil => exact absurd h2 (by simp [strLeB])
      | cons z zs =>
        rw [strLeB_cons] at h1 h2 ⊢
        rcases h1 with h1 | ⟨e1, r1⟩
        · rcases h2 with h2 | ⟨e2, r2⟩
          · exact Or.inl (by omega)
          · exact Or.inl (by omega)
        · rcases h2 with h2 | ⟨e2, r2⟩
          · exact Or.inl (by omega)
          · exact Or.inr ⟨by omega, ih ys zs r1 r2⟩

theorem strLeB_antisymm (a b : List Char) (h1 : strLeB a b = true)
    (h2 : strLeB b a = true) : a = b := by
  induction a generalizing b with
  | nil =>
    cases b with
    | nil => rfl
    | cons y ys => exact absurd h2 (by simp [strLeB])
  | cons x xs ih =>
    cases b with
    | nil => exact absurd h1 (by simp [strLeB])
    | cons y ys =>
      rw [strLeB_cons] at h1 h2
      have hxy : x.toNat = y.toNat := by
        rcases h1 with h1 | ⟨e1, _⟩ <;> rcases h2 with h2 | ⟨e2, _⟩ <;> omega
      have hx : x = y := Char.eq_of_val_eq (UInt32.ext hxy)
      rcases h1 with h1 | ⟨_, r1⟩
      · omega
      rcases h2 with h2 | ⟨_, r2⟩
      · omega
      rw [hx, ih ys r1 r2]

theorem keyLeB_trans (a b c : String × JVal) (h1 : keyLeB a b = true)
    (h2 : keyLeB b c = true) : keyLeB a c = true :=
  strLeB_trans a.1.data b.1.data c.1.data h1 h2

theorem keyLeB_total (a b : String × JVal) : (keyLeB a b || keyLeB b a) = true := by
  rcases strLeB_total a.1.data b.1.data with h | h <;> simp [keyLeB, h]

theorem keyLeB_key_eq (a b : String × JVal) (h1 : keyLeB a b = true)
    (h2 : keyLeB b a = true) : a.1 = b.1 :=
  String.ext (strLeB_antisymm a.1.data b.1.data h1 h2)

/-- Two sorted association lists with the same entries and duplicate-free
keys are equal: the keystone of insertion-order-independent hashing. -/
theorem sorted_nodupkeys_perm_eq :
    ∀ l1 l2 : PyDict, l1.Perm l2 →
      l1.Pairwise (fun a b => keyLeB a b = true) →
      l2.Pairwise (fun a b => keyLeB a b = true) →
      (l1.map Prod.fst).Nodup → l1 = l2 := by
  intro l1
  induction l1 with
  | nil =>
    intro l2 hp _ _ _
    have := hp.length_eq
    cases l2 with
    | nil => rfl
    | cons b t2 => simp at this
  | cons a t1 ih =>
    intro l2 hp hs1 hs2 hnd
    cases l2 with
    | nil =>
      have := hp.length_eq
      simp at this
    | cons b t2 =>
      have hab : a = b := by
        rcases List.mem_cons.mp (hp.mem_iff.mp (List.mem_cons_self a t1)) with h | hat2
        · exact h
        rcases List.mem_cons.mp (hp.mem_iff.mpr (List.mem_cons_self b t2)) with h | hbt1
        · exact h.symm
        have hba : keyLeB b a = true := List.rel_of_pairwise_cons hs2 hat2
        have hab : keyLeB a b = true := List.rel_of_pairwise_cons hs1 hbt1
        have hkey : a.1 = b.1 := keyLeB_key_eq a b hab hba
        exfalso
        have hmem : a.1 ∈ t1.map Prod.fst := by
          rw [hkey]
          exact List.mem_map_of_mem Prod.fst hbt1
        rw [List.map_cons, List.nodup_cons] at hnd
        exact hnd.1 hmem
      subst hab
      have ht : t1.Perm t2 := hp.cons_inv
      rw [List.map_cons, List.nodup_cons] at hnd
      rw [ih t2 ht hs1.of_cons hs2.of_cons hnd.2]

/-- C1: hash_metadata is invariant under the insertion order of the
metadata mapping — mappings with identical key/value sets (permutations
with duplicate-free keys, as Python dicts are) hash identically. -/
theorem hash_metadata_order_invariant (m1 m2 : PyDict) (hperm : m1.Perm m2)
    (hnd : (m1.map Prod.fst).Nodup) : hash_metadata m1 = hash_metadata m2 := by
  have hsorted : List.mergeSort m1 keyLeB = List.mergeSort m2 keyLeB := by
    apply sorted_nodupkeys_perm_eq
    · exact (List.mergeSort_perm m1 keyLeB).trans
        (hperm.trans (List.mergeSort_perm m2 keyLeB).symm)
    · exact List.sorted_mergeSort keyLeB_trans keyLeB_total m1
    · exact List.sorted_mergeSort keyLeB_trans keyLeB_total m2
    · exact (((List.mergeSort_perm m1 keyLeB).map Prod.fst).nodup_iff).mpr hnd
  have hdump : json_dumps true m1 = json_dumps true m2 := by
    unfold json_dumps
    simp only [eq_self_iff_true, if_true, hsorted]
  unfold hash_metadata
  rw [hdump]

/-- Witness for C1 at a concrete two-entry mapping built in both orders. -/
theorem hash_metadata_order_invariant_witness :
    ([("b", JVal.num 2), ("a", JVal.str "x")] : PyDict).Perm
        [("a", JVal.str "x"), ("b", JVal.num 2)] ∧
      (([("b", JVal.num 2), ("a", JVal.str "x")] : PyDict).map Prod.fst).Nodup ∧
      hash_metadata [("b", JVal.num 2), ("a", JVal.str "x")] =
        hash_metadata [("a", JVal.str "x"), ("b", JVal.num 2)] :=
  ⟨List.Perm.swap _ _ _, by decide,
    hash_metadata_order_invariant _ _ (List.Perm.swap _ _ _) (by decide)⟩

theorem hexChar_mem (n : Nat) : hexChar n ∈ ("0123456789abcdef").data := by
  unfold hexChar
  rw [List.getD_eq_getElem?_getD]
  cases h : ("0123456789abcdef").data[n]? with
  | none => simp only [h, Option.getD_none]; decide
  | some c =>
    simp only [h, Option.getD_some]
    exact List.getElem?_mem h

theorem flatMap_byteHex_length (bs : List Nat) :
    (bs.flatMap byteHex).length = 2 * bs.length := by
  induction bs with
  | nil => rfl
  | cons b t ih => simp [byteHex, ih]; omega

theorem mem_flatMap_byteHex (bs : List Nat) (c : Char)
    (h : c ∈ bs.flatMap byteHex) : c ∈ ("0123456789abcdef").data := by
  rcases List.mem_flatMap.mp h with ⟨b, _, hc⟩
  simp only [byteHex, List.mem_cons, List.not_mem_nil, or_false] at hc
  rcases hc with h1 | h2
  · rw [h1]; exact hexChar_mem _
  · rw [h2]; exact hexChar_mem _

theorem stateBytes_length (st : SHAState) : (stateBytes st).length = 32 := by
  simp [stateBytes, be4]

/-- Every SHA-256 hexdigest is 64 lowercase hexadecimal characters. -/
theorem sha256Hexdigest_hex (msg : List Nat) :
    (sha256Hexdigest msg).length = 64 ∧
      ∀ c ∈ (sha256Hexdigest msg).data, c ∈ ("0123456789abcdef").data := by
  constructor
  · show ((stateBytes (sha256Final msg)).flatMap byteHex).length = 64
    rw [flatMap_byteHex_length, stateBytes_length]
  · intro c hc
    exact mem_flatMap_byteHex _ c hc

/-- C8: hash_metadata always yields a 64-character string of lowercase
hexadecimal digits. -/
theorem hash_metadata_hex64 (m : PyDict) :
    (hash_metadata m).length = 64 ∧
      ∀ c ∈ (hash_metadata m).data, c ∈ ("0123456789abcdef").data :=
  sha256Hexdigest_hex (strBytes (json_dumps true m))

theorem rfindAux_spec (c : Char) (l : List Char) (i : Nat) :
    rfindAux c l i = -1 ∨
      ∃ k : Nat, rfindAux c l i = (i : Int) + (k : Int) ∧ l.get? k = some c := by
  induction l generalizing i with
  | nil => exact Or.inl rfl
  | cons x xs ih =>
    simp only [rfindAux]
    rcases ih (i + 1) with hneg | ⟨k, hk, hget⟩
    · rw [hneg, if_neg (by norm_num)]
      by_cases hx : (x == c) = true
      · rw [if_pos hx]
        exact Or.inr ⟨0, by simp, by simp [List.get?, eq_of_beq hx]⟩
      · rw [if_neg hx]
        exact Or.inl rfl
    · rw [hk, if_pos (by push_cast; omega)]
      refine Or.inr ⟨k + 1, by push_cast; ring, ?_⟩
      simpa [List.get?] using hget

theorem rfind_spec (l : List Char) (c : Char) :
    rfind l c = -1 ∨
      ∃ k : Nat, rfind l c = (k : Int) ∧ l.get? k = some c := by
  rcases rfindAux_spec c l 0 with h | ⟨k, hk, hget⟩
  · exact Or.inl h
  · exact Or.inr ⟨k, by simpa using hk, hget⟩

theorem rfind_ge_neg_one (l : List Char) (c : Char) : -1 ≤ rfind l c := by
  rcases rfind_spec l c with h | ⟨k, hk, _⟩
  · rw [h]
  · rw [hk]; omega

/-- When the final path component has no dot, splitext finds no extension. -/
theorem splitext_no_dot (p : String) (h : '.' ∉ (basename p).data) :
    (splitext p).2 = "" := by
  unfold splitext
  have hdi : ¬ rfind p.data '.' > rfind p.data '/' := by
    intro hgt
    rcases rfind_spec p.data '.' with hneg | ⟨k, hk, hget⟩
    · have := rfind_ge_neg_one p.data '/'
      omega
    · apply h
      show '.' ∈ p.data.drop (rfind p.data '/' + 1).toNat
      rw [List.mem_iff_get?]
      refine ⟨k - (rfind p.data '/' + 1).toNat, ?_⟩
      rw [List.get?_drop]
      have hle : (rfind p.data '/' + 1).toNat ≤ k := by
        have h1 : rfind p.data '/' + 1 ≤ (k : Int) := by omega
        have := Int.toNat_le_toNat h1
        simpa using this
      rw [Nat.add_sub_cancel' hle]
      exact hget
  rw [if_neg]
  intro hand
  exact hdi hand.1

/-- C3: dispatch on an extension outside the table returns the single-key
error mapping whose message carries the extracted extension verbatim. -/
theorem extract_metadata_unsupported_extension (fs : FileSystem) (p : String)
    (h : pyLower (splitext p).2 ∉ supported_extensions) :
    extract_metadata fs p =
        [("error", JVal.str ("Unsupported file type: " ++ pyLower (splitext p).2))] ∧
      ∃ pre, ("Unsupported file type: " ++ pyLower (splitext p).2) =
        pre ++ pyLower (splitext p).2 := by
  simp only [supported_extensions, List.mem_cons, List.not_mem_nil, or_false,
    not_or] at h
  obtain ⟨h1, h2, h3, h4, h5, h6, h7, h8, h9⟩ := h
  refine ⟨?_, ⟨"Unsupported file type: ", rfl⟩⟩
  unfold extract_metadata
  rw [if_neg h1, if_neg h2, if_neg h3, if_neg h4,
    if_neg (by rintro (h | h | h) <;> [exact h5 h; exact h6 h; exact h7 h]),
    if_neg h8, if_neg h9]

/-- Witness for C3 at a concrete unhandled path. -/
theorem extract_metadata_unsupported_extension_witness :
    pyLower (splitext "/docs/report.xyz").2 ∉ supported_extensions ∧
      extract_metadata fsFail "/docs/report.xyz" =
        [("error", JVal.str ("Unsupported file type: " ++
          pyLower (splitext "/docs/report.xyz").2))] :=
  ⟨by decide,
    (extract_metadata_unsupported_extension fsFail "/docs/report.xyz" (by decide)).1⟩

/-- C9: a path whose final component has no dot reports the unsupported
type with an empty extension string, rather than failing differently. -/
theorem extract_metadata_no_extension (fs : FileSystem) (p : String)
    (h : '.' ∉ (basename p).data) :
    extract_metadata fs p = [("error", JVal.str "Unsupported file type: ")] := by
  have hext : (splitext p).2 = "" := splitext_no_dot p h
  have hmsg : ("Unsupported file type: " ++ pyLower "") = "Unsupported file type: " := by
    decide
  unfold extract_metadata
  rw [hext]
  show (if ("" : String) = ".pdf" then _ else _) = _
  rw [if_neg (by decide), if_neg (by decide), if_neg (by decide), if_neg (by decide),
    if_neg (by decide), if_neg (by decide), if_neg (by decide), hmsg]

/-- Witness for C9 at a concrete extensionless path. -/
theorem extract_metadata_no_extension_witness :
    '.' ∉ (basename "/home/user/README").data ∧
      extract_metadata fsFail "/home/user/README" =
        [("error", JVal.str "Unsupported file type: ")] :=
  ⟨by decide, extract_metadata_no_extension fsFail "/home/user/README" (by decide)⟩

/-- C2: extract_metadata totalizes every parse exception: whenever the
dispatched library call fails, the result is the single-key error mapping
with the format-specific message — in particular a corrupted PDF reports
a PDF extraction failure. One path per format, since the hypotheses name
the extension the path resolves to. -/
theorem extract_metadata_catches_parse_errors (fs : FileSystem) (e : String)
    (p1 p2 p3 p4 p5 p6 p7 : String) :
    (pyLower (splitext p1).2 = ".pdf" → fs.pdf p1 = Except.error e →
      extract_metadata fs p1 =
        [("error", JVal.str ("Failed to extract PDF metadata: " ++ e))]) ∧
    (pyLower (splitext p2).2 = ".docx" → fs.docx p2 = Except.error e →
      extract_metadata fs p2 =
        [("error", JVal.str ("Failed to extract Word metadata: " ++ e))]) ∧
    (pyLower (splitext p3).2 = ".xlsx" → fs.xlsx p3 = Except.error e →
      extract_metadata fs p3 =
        [("error", JVal.str ("Failed to extract Excel metadata: " ++ e))]) ∧
    (pyLower (splitext p4).2 = ".pptx" → fs.pptx p4 = Except.error e →
      extract_metadata fs p4 =
        [("error", JVal.str ("Failed to extract PowerPoint metadata: " ++ e))]) ∧
    ((pyLower (splitext p5).2 = ".jpg" ∨ pyLower (splitext p5).2 = ".jpeg" ∨
        pyLower (splitext p5).2 = ".png") → fs.image p5 = Except.error e →
      extract_metadata fs p5 =
        [("error", JVal.str ("Failed to extract image metadata: " ++ e))]) ∧
    (pyLower (splitext p6).2 = ".eml" → fs.eml p6 = Except.error e →
      extract_metadata fs p6 =
        [("error", JVal.str ("Failed to extract email metadata: " ++ e))]) ∧
    (pyLower (splitext p7).2 = ".csv" → fs.csv p7 = Except.error e →
      extract_metadata fs p7 =
        [("error", JVal.str ("Failed to extract CSV metadata: " ++ e))]) := by
  refine ⟨?_, ?_, ?_, ?_, ?_, ?_, ?_⟩
  · intro hext herr
    unfold extract_metadata
    rw [hext, if_pos rfl]
    unfold extract_pdf_metadata
    rw [herr]
    rfl
  · intro hext herr
    unfold extract_metadata
    rw [hext, if_neg (by decide), if_pos rfl]
    unfold extract_docx_metadata
    rw [herr]
  · intro hext herr
    unfold extract_metadata
    rw [hext, if_neg (by decide), if_neg (by decide), if_pos rfl]
    unfold extract_xlsx_metadata
    rw [herr]
  · intro hext herr
    unfold extract_metadata
    rw [hext, if_neg (by decide), if_neg (by decide), if_neg (by decide), if_pos rfl]
    unfold extract_pptx_metadata
    rw [herr]
  · intro hext herr
    unfold extract_metadata
    rcases hext with hj | hj | hj <;>
      rw [hj, if_neg (by decide), if_neg (by decide), if_neg (by decide),
        if_neg (by decide), if_pos (by simp)] <;>
      · unfold extract_image_metadata
        rw [herr]
  · intro hext herr
    unfold extract_metadata
    rw [hext, if_neg (by decide), if_neg (by decide), if_neg (by decide),
      if_neg (by decide), if_neg (by decide), if_pos rfl]
    unfold extract_email_metadata
    rw [herr]
  · intro hext herr
    unfold extract_metadata
    rw [hext, if_neg (by decide), if_neg (by decide), if_neg (by decide),
      if_neg (by decide), if_neg (by decide), if_neg (by decide), if_pos rfl]
    unfold extract_csv_metadata
    rw [herr]

/-- Witness for C2: a file system whose every parse raises, probed once
per registered extension. -/
theorem extract_metadata_catches_parse_errors_witness :
    extract_metadata fsFail "a.pdf" =
        [("error", JVal.str ("Failed to extract PDF metadata: " ++ "boom"))] ∧
      extract_metadata fsFail "a.docx" =
        [("error", JVal.str ("Failed to extract Word metadata: " ++ "boom"))] ∧
      extract_metadata fsFail "a.xlsx" =
        [("error", JVal.str ("Failed to extract Excel metadata: " ++ "boom"))] ∧
      extract_metadata fsFail "a.pptx" =
        [("error", JVal.str ("Failed to extract PowerPoint metadata: " ++ "boom"))] ∧
      extract_metadata fsFail "a.jpg" =
        [("error", JVal.str ("Failed to extract image metadata: " ++ "boom"))] ∧
      extract_metadata fsFail "a.eml" =
        [("error", JVal.str ("Failed to extract email metadata: " ++ "boom"))] ∧
      extract_metadata fsFail "a.csv" =
        [("error", JVal.str ("Failed to extract CSV metadata: " ++ "boom"))] := by
  have h := extract_metadata_catches_parse_errors fsFail "boom"
    "a.pdf" "a.docx" "a.xlsx" "a.pptx" "a.jpg" "a.eml" "a.csv"
  exact ⟨h.1 (by decide) rfl, h.2.1 (by decide) rfl, h.2.2.1 (by decide) rfl,
    h.2.2.2.1 (by decide) rfl, h.2.2.2.2.1 (Or.inl (by decide)) rfl,
    h.2.2.2.2.2.1 (by decide) rfl, h.2.2.2.2.2.2 (by decide) rfl⟩

/-- C7: a CSV parsing to header a,b,c plus exactly two data rows yields
column_count 3, the three column names, and row_count 2. -/
theorem extract_csv_metadata_header_abc (r1 r2 : List String) :
    extract_csv_metadata (Except.ok [["a", "b", "c"], r1, r2]) =
      [("column_count", JVal.num 3),
       ("column_names", JVal.arr [JVal.str "a", JVal.str "b", JVal.str "c"]),
       ("row_count", JVal.num 2)] := rfl

/-- C5 counterexample: a PDF with zero pages is an empty document, yet the
extractor returns an error result — the first-page preview access raises
before the try block completes. -/
theorem pdf_zero_pages_error_result :
    extract_pdf_metadata (Except.ok ⟨some [("Author", "Ann")], []⟩) =
      [("error", JVal.str
        ("Failed to extract PDF metadata: " ++ "sequence index out of range"))] := rfl

/-- C5 as amended: a missing EXIF block and a zero-paragraph Word document
degrade to omitted keys or empty defaults, but a zero-page PDF yields an
error result rather than a successful mapping. -/
theorem optional_fields_defaults_amended (img : ImageFile) (d : DocxDoc)
    (pdf : PdfDoc) (h1 : img.exif = none) (h2 : d.paragraphs = [])
    (h3 : pdf.pages = []) :
    extract_image_metadata (Except.ok img) =
        [("format", jopt img.format),
         ("size", JVal.str (toString img.width ++ "x" ++ toString img.height)),
         ("mode", JVal.str img.mode)] ∧
      extract_docx_metadata (Except.ok d) =
        [("author", jopt d.author),
         ("created", JVal.str (pyStr d.created)),
         ("last_modified_by", jopt d.last_modified_by),
         ("modified", JVal.str (pyStr d.modified)),
         ("title", jopt d.title),
         ("paragraph_count", JVal.num 0),
         ("text_preview", JVal.str "")] ∧
      (extract_pdf_metadata (Except.ok pdf)).map Prod.fst = ["error"] := by
  refine ⟨?_, ?_, ?_⟩
  · show imageBody img = _
    unfold imageBody
    rw [h1]
  · show docxBody d = _
    unfold docxBody
    rw [h2]
    rfl
  · have hbind : (Except.ok pdf).bind pdfBody =
        Except.error "sequence index out of range" := by
      show pdfBody pdf = _
      unfold pdfBody
      rw [h3]
    unfold extract_pdf_metadata
    rw [hbind]
    rfl

/-- Witness for the amended C5 at concrete documents. -/
theorem optional_fields_defaults_amended_witness :
    extract_image_metadata (Except.ok ⟨some "PNG", 640, 480, "RGB", none⟩) =
        [("format", jopt (some "PNG")),
         ("size", JVal.str (toString 640 ++ "x" ++ toString 480)),
         ("mode", JVal.str "RGB")] ∧
      extract_docx_metadata (Except.ok ⟨some "Ann", none, none, none, none, []⟩) =
        [("author", jopt (some "Ann")),
         ("created", JVal.str (pyStr none)),
         ("last_modified_by", jopt none),
         ("modified", JVal.str (pyStr none)),
         ("title", jopt none),
         ("paragraph_count", JVal.num 0),
         ("text_preview", JVal.str "")] ∧
      (extract_pdf_metadata (Except.ok ⟨none, []⟩)).map Prod.fst = ["error"] :=
  optional_fields_defaults_amended ⟨some "PNG", 640, 480, "RGB", none⟩
    ⟨some "Ann", none, none, none, none, []⟩ ⟨none, []⟩ rfl rfl rfl

theorem tsDescB_trans (a b c : Row) (h1 : tsDescB a b = true)
    (h2 : tsDescB b c = true) : tsDescB a c = true :=
  strLeB_trans c.timestamp.data b.timestamp.data a.timestamp.data h2 h1

theorem tsDescB_total (a b : Row) : (tsDescB a b || tsDescB b a) = true := by
  rcases strLeB_total a.timestamp.data b.timestamp.data with h | h <;>
    simp [tsDescB, h]

/-- C4: after a save whose captured timestamp is strictly later than every
stored one, list_all returns exactly the stored rows, in descending
timestamp order, with the just-saved record first, and that record keeps
the hash handed to save. -/
theorem save_then_list_all_newest_first (db : DBState) (p : String)
    (m : PyDict) (hsh now : String)
    (hfresh : ∀ r ∈ db.rows, strLeB now.data r.timestamp.data = false) :
    (get_all_metadata (save_metadata db p m hsh now).2).Perm
        ((save_metadata db p m hsh now).2).rows ∧
      (get_all_metadata (save_metadata db p m hsh now).2).Pairwise
        (fun a b => tsDescB a b = true) ∧
      (get_all_metadata (save_metadata db p m hsh now).2).head? =
        some (mkRow db.nextId p m hsh now) ∧
      (mkRow db.nextId p m hsh now).metadata_hash = hsh := by
  have hperm : (get_all_metadata (save_metadata db p m hsh now).2).Perm
      (db.rows ++ [mkRow db.nextId p m hsh now]) :=
    List.mergeSort_perm _ tsDescB
  have hsort : (get_all_metadata (save_metadata db p m hsh now).2).Pairwise
      (fun a b => tsDescB a b = true) :=
    List.sorted_mergeSort tsDescB_trans tsDescB_total _
  refine ⟨hperm, hsort, ?_, rfl⟩
  have hmem : mkRow db.nextId p m hsh now ∈
      get_all_metadata (save_metadata db p m hsh now).2 :=
    hperm.mem_iff.mpr (by simp)
  cases hO : get_all_metadata (save_metadata db p m hsh now).2 with
  | nil => rw [hO] at hmem; exact absurd hmem (List.not_mem_nil _)
  | cons r0 rest =>
    rw [hO] at hmem hsort hperm
    rcases List.mem_cons.mp hmem with h0 | hrest
    · rw [h0]; rfl
    have hrel : tsDescB r0 (mkRow db.nextId p m hsh now) = true :=
      List.rel_of_pairwise_cons hsort hrest
    have hr0 : r0 ∈ db.rows ++ [mkRow db.nextId p m hsh now] :=
      hperm.mem_iff.mp (List.mem_cons_self _ _)
    rcases List.mem_append.mp hr0 with hold | hnew
    · exfalso
      have hfalse := hfresh r0 hold
      have htrue : strLeB now.data r0.timestamp.data = true := hrel
      rw [hfalse] at htrue
      exact Bool.false_ne_true htrue
    · have : r0 = mkRow db.nextId p m hsh now := by simpa using hnew
      rw [this]
      rfl

/-- Witness for C4: one save into a fresh database. -/
theorem save_then_list_all_newest_first_witness :
    (get_all_metadata
        (save_metadata create_tables "/a/b.pdf" [] "h1" "2024-05-05T10:00:00").2).head? =
      some (mkRow 1 "/a/b.pdf" [] "h1" "2024-05-05T10:00:00") :=
  (save_then_list_all_newest_first create_tables "/a/b.pdf" [] "h1"
    "2024-05-05T10:00:00" (by intro r hr; exact absurd hr (List.not_mem_nil r))).2.2.1

/-- C6: saving the same metadata and hash twice appends two distinct rows:
equal metadata_hash columns, different autoincrement ids, and different
timestamps whenever the two wall-clock captures differ. -/
theorem save_twice_distinct_rows (db : DBState) (p : String) (m : PyDict)
    (hsh now1 now2 : String) (hne : now1 ≠ now2) :
    ((save_metadata (save_metadata db p m hsh now1).2 p m hsh now2).2).rows =
        db.rows ++ [mkRow db.nextId p m hsh now1, mkRow (db.nextId + 1) p m hsh now2] ∧
      (mkRow db.nextId p m hsh now1).id ≠ (mkRow (db.nextId + 1) p m hsh now2).id ∧
      (mkRow db.nextId p m hsh now1).timestamp ≠
        (mkRow (db.nextId + 1) p m hsh now2).timestamp ∧
      (mkRow db.nextId p m hsh now1).metadata_hash =
        (mkRow (db.nextId + 1) p m hsh now2).metadata_hash ∧
      mkRow db.nextId p m hsh now1 ≠ mkRow (db.nextId + 1) p m hsh now2 := by
  refine ⟨?_, by simp [mkRow], hne, rfl, ?_⟩
  · show (db.rows ++ [mkRow db.nextId p m hsh now1]) ++ [mkRow (db.nextId + 1) p m hsh now2] = _
    rw [List.append_assoc]
    rfl
  · intro hEq
    have := congrArg Row.id hEq
    simp [mkRow] at this

/-- Witness for C6 at two concrete, distinct timestamps. -/
theorem save_twice_distinct_rows_witness :
    ((save_metadata (save_metadata create_tables "/a/b.pdf" [] "h1"
          "2024-01-01T00:00:00").2 "/a/b.pdf" [] "h1" "2024-01-01T00:00:01").2).rows =
        [mkRow 1 "/a/b.pdf" [] "h1" "2024-01-01T00:00:00",
         mkRow 2 "/a/b.pdf" [] "h1" "2024-01-01T00:00:01"] ∧
      mkRow 1 "/a/b.pdf" [] "h1" "2024-01-01T00:00:00" ≠
        mkRow 2 "/a/b.pdf" [] "h1" "2024-01-01T00:00:01" :=
  ⟨(save_twice_distinct_rows create_tables "/a/b.pdf" [] "h1"
      "2024-01-01T00:00:00" "2024-01-01T00:00:01" (by decide)).1,
    (save_twice_distinct_rows create_tables "/a/b.pdf" [] "h1"
      "2024-01-01T00:00:00" "2024-01-01T00:00:01" (by decide)).2.2.2.2⟩

/-- C10: the inserted row stores the basename of the path in file_name and
the path itself, unchanged, in file_path. -/
theorem save_metadata_basename_column (db : DBState) (p : String) (m : PyDict)
    (hsh now : String) :
    ((save_metadata db p m hsh now).2).rows.getLast? =
        some (mkRow db.nextId p m hsh now) ∧
      (mkRow db.nextId p m hsh now).file_name = basename p ∧
      (mkRow db.nextId p m hsh now).file_path = p :=
  ⟨List.getLast?_concat _, rfl, rfl⟩
